import Mathlib

/-!
Shallow embedding of `src/feature_engineering.py` (functions
`prepare_m5_features` and `prepare_olist_features`).

Dataframes are lists of rows in frame order; a derived column is a list of
`Option ℚ` aligned positionally with the frame (pandas `NaN` = `none`).
Numeric cells are `ℚ`.  The pandas primitives used by the source are
modelled generically: `groupShift` (`groupby(k)[c].shift(L)`), `rollingAgg`
(`Series.rolling(W)` with the default `min_periods = W`, aggregating the
non-missing values of the window), `leftJoin` (`merge(..., how='left')`),
`innerJoin` (`merge` with the default `how='inner'`), `transformMean`
(`groupby(k)[c].transform('mean')`, missing values excluded) and
`groupSize` (`groupby(keys).size()`, whose row order is the sorted key
order).  `pd.melt` produces one block of rows per value column, so the
melted frame is in day-major order; `meltM5` reproduces that.
-/

/-- Mean of a list of rationals (pandas mean over the non-missing values;
`none` when there is no value, as the mean of an all-missing column). -/
def optMean (l : List ℚ) : Option ℚ :=
  if l.isEmpty then none else some (l.sum / l.length)

/-- Plain mean, used inside rolling windows that are known non-empty. -/
def meanQ (l : List ℚ) : ℚ := l.sum / (l.length : ℚ)

/-- Sample variance (denominator `N - 1`), the square of pandas
`Series.rolling(W).std()` on the same window. -/
def sampleVarQ (l : List ℚ) : ℚ :=
  (l.map (fun x => (x - meanQ l) ^ 2)).sum / ((l.length : ℚ) - 1)

/-- `df.groupby(key)[col].shift(L)`: at frame position `i`, the value of the
row of the same key standing `L` group positions earlier, `none` when there
is no such row.  `g` is the sequence of same-key values strictly before
position `i`, so its length is the row's own group position. -/
def groupShift {K V : Type} [DecidableEq K] (L : Nat) (xs : List (K × V)) :
    List (Option V) :=
  (List.range xs.length).map (fun i =>
    match xs[i]? with
    | none => none
    | some kv =>
      let g := ((xs.take i).filter (fun p => decide (p.1 = kv.1))).map (fun p => p.2)
      if L ≤ g.length then g[g.length - L]? else none)

/-- `Series.rolling(W).agg(f)` with the default `min_periods = W`: at
position `i` the window is the last `W` positions up to `i`; the result is
missing unless the window holds at least `W` non-missing values. -/
def rollingAgg (W : Nat) (f : List ℚ → ℚ) (xs : List (Option ℚ)) :
    List (Option ℚ) :=
  (List.range xs.length).map (fun i =>
    let window := (xs.take (i + 1)).drop (i + 1 - W)
    let present := window.filterMap id
    if W ≤ present.length then some (f present) else none)

/-- `l.merge(r, on=key, how='left')`: every left row, in order, paired with
each matching right row; a left row with no match is kept once, paired with
`none` (missing values in the joined columns). -/
def leftJoin {A B K : Type} [DecidableEq K] (l : List A) (r : List B)
    (ka : A → K) (kb : B → K) : List (A × Option B) :=
  l.flatMap (fun a =>
    match r.filter (fun b => decide (kb b = ka a)) with
    | [] => [(a, none)]
    | bs => bs.map (fun b => (a, some b)))

/-- `l.merge(r, on=key)` with the default `how='inner'`: a left row with no
matching right row is dropped. -/
def innerJoin {A B K : Type} [DecidableEq K] (l : List A) (r : List B)
    (ka : A → K) (kb : B → K) : List (A × B) :=
  l.flatMap (fun a => (r.filter (fun b => decide (kb b = ka a))).map (fun b => (a, b)))

/-- `df.groupby(key)[col].transform('mean')`: every row receives the mean of
the non-missing values of its own group. -/
def transformMean {K : Type} [DecidableEq K] (df : List (K × Option ℚ)) :
    List (Option ℚ) :=
  df.map (fun r => optMean ((df.filter (fun p => decide (p.1 = r.1))).filterMap (fun p => p.2)))

/-! ## The M5 pipeline (`prepare_m5_features`) -/

/-- One row of `sales_train_validation.csv`: identifier columns and the
`d_1 … d_D` day columns.  `sid` stands for the source's `id` column. -/
structure SalesRow where
  sid : Nat
  item : Nat
  store : Nat
  vals : List ℚ
deriving DecidableEq, Repr

/-- One row of the melted (long) sales frame. -/
structure LongRow where
  sid : Nat
  item : Nat
  store : Nat
  day : Nat
  sales : ℚ
deriving DecidableEq, Repr

/-- One row of `calendar.csv` (the columns the join key and features need). -/
structure CalRow where
  d : Nat
  date : Nat
  wm_yr_wk : Nat
deriving DecidableEq, Repr

/-- One row of `sell_prices.csv`. -/
structure PriceRow where
  store_id : Nat
  item_id : Nat
  wm_yr_wk : Nat
  sell_price : ℚ
deriving DecidableEq, Repr

/-- `pd.read_csv(sales_path, nrows=nrows)`: the first `nrows` rows of the
sales table, all of them when `nrows` is `None`. -/
def takeRows (nrows : Option Nat) (sales : List SalesRow) : List SalesRow :=
  match nrows with
  | none => sales
  | some n => sales.take n

/-- `sales.melt(id_vars=id_cols, var_name='d', value_name='sales')`:
one block of rows per day column `d`, each block listing every entity in
input order (pandas melt is value-column-major). -/
def meltM5 (sales : List SalesRow) (D : Nat) : List LongRow :=
  (List.range D).flatMap (fun d =>
    sales.map (fun r => ⟨r.sid, r.item, r.store, d, r.vals.getD d 0⟩))

/-- `sales_long.merge(calendar[...], on='d', how='left')`. -/
def m5WithCalendar (df : List LongRow) (cal : List CalRow) :
    List (LongRow × Option CalRow) :=
  leftJoin df cal (fun r => r.day) (fun c => c.d)

/-- `df.merge(prices, on=['store_id','item_id','wm_yr_wk'], how='left')`.
A row whose calendar join failed has a missing `wm_yr_wk`, which matches no
price row (a missing key never equals a present one). -/
def m5WithPrices (df : List (LongRow × Option CalRow)) (prices : List PriceRow) :
    List ((LongRow × Option CalRow) × Option PriceRow) :=
  leftJoin df prices
    (fun p => (p.1.store, p.1.item, p.2.map (fun c => c.wm_yr_wk)))
    (fun pr => (pr.store_id, pr.item_id, some pr.wm_yr_wk))

/-- The frame `df` of `prepare_m5_features` after loading (with the optional
row cap), melt and both merges. -/
def m5Df (nrows : Option Nat) (sales : List SalesRow) (D : Nat)
    (cal : List CalRow) (prices : List PriceRow) :
    List ((LongRow × Option CalRow) × Option PriceRow) :=
  m5WithPrices (m5WithCalendar (meltM5 (takeRows nrows sales) D) cal) prices

/-- The `(id, sales)` pairs of `df` in frame order, the series that the lag
and rolling computations group and aggregate. -/
def m5KV (nrows : Option Nat) (sales : List SalesRow) (D : Nat)
    (cal : List CalRow) (prices : List PriceRow) : List (Nat × ℚ) :=
  (m5Df nrows sales D cal prices).map (fun t => (t.1.1.sid, t.1.1.sales))

/-- Column `lag_L`: `df.groupby('id')['sales'].shift(lag)`. -/
def m5Lag (L : Nat) (nrows : Option Nat) (sales : List SalesRow) (D : Nat)
    (cal : List CalRow) (prices : List PriceRow) : List (Option ℚ) :=
  groupShift L (m5KV nrows sales D cal prices)

/-- Column `rolling_mean_W`:
`df.groupby('id')['sales'].shift(1).rolling(window).mean()` — the shift is
per group, but the rolling aggregation runs over the whole frame-ordered
series, exactly as written in the source. -/
def m5RollingMean (W : Nat) (nrows : Option Nat) (sales : List SalesRow) (D : Nat)
    (cal : List CalRow) (prices : List PriceRow) : List (Option ℚ) :=
  rollingAgg W meanQ (groupShift 1 (m5KV nrows sales D cal prices))

/-- The square of column `rolling_std_W`:
`df.groupby('id')['sales'].shift(1).rolling(window).std()` aggregates the
same windows as `rolling_mean_W`; we record its square (the sample
variance), which is missing exactly when the std is and determines it. -/
def m5RollingVar (W : Nat) (nrows : Option Nat) (sales : List SalesRow) (D : Nat)
    (cal : List CalRow) (prices : List PriceRow) : List (Option ℚ) :=
  rollingAgg W sampleVarQ (groupShift 1 (m5KV nrows sales D cal prices))

/-- Column `avg_sell_price`:
`df.groupby('id')['sell_price'].transform('mean')`. -/
def m5AvgSellPrice (nrows : Option Nat) (sales : List SalesRow) (D : Nat)
    (cal : List CalRow) (prices : List PriceRow) : List (Option ℚ) :=
  transformMean ((m5Df nrows sales D cal prices).map
    (fun t => (t.1.1.sid, t.2.map (fun pr => pr.sell_price))))

/-! ## The Olist pipeline (`prepare_olist_features`) -/

/-- One row of `olist_order_items_dataset.csv` (the columns the pipeline
uses). -/
structure ItemRow where
  order_id : Nat
  product_id : Nat
deriving DecidableEq, Repr

/-- One row of `olist_orders_dataset.csv`; `purchase_day` is
`order_purchase_timestamp` already reduced to its date
(`.dt.date` of line 125). -/
structure OrderRow where
  order_id : Nat
  customer_id : Nat
  purchase_day : Nat
deriving DecidableEq, Repr

/-- One row of `olist_customers_dataset.csv`. -/
structure CustomerRow where
  customer_id : Nat
  customer_unique_id : Nat
deriving DecidableEq, Repr

/-- One row of `olist_products_dataset.csv` (the measure columns the
aggregation uses; any of them can be missing). -/
structure ProductRow where
  product_id : Nat
  weight_g : Option ℚ
  length_cm : Option ℚ
  height_cm : Option ℚ
  width_cm : Option ℚ
deriving DecidableEq, Repr

/-- One row of `olist_order_payments_dataset.csv`. -/
structure PaymentRow where
  order_id : Nat
  payment_value : Option ℚ
deriving DecidableEq, Repr

/-- One row of `olist_order_reviews_dataset.csv`. -/
structure ReviewRow where
  order_id : Nat
  review_score : Option ℚ
deriving DecidableEq, Repr

/-- One row of `order_data` after the five merges of lines 112-122, with
`order_date` already extracted (line 125). -/
structure OrderDataRow where
  order_id : Nat
  product_id : Nat
  order_date : Nat
  weight_g : Option ℚ
  length_cm : Option ℚ
  height_cm : Option ℚ
  width_cm : Option ℚ
  payment_value : Option ℚ
  review_score : Option ℚ
deriving DecidableEq, Repr

/-- Lines 112-122: `items` is inner-merged with `orders` and `customers`
(default `how='inner'`), then left-merged with `products`, `payments` and
`reviews`. -/
def olistOrderData (items : List ItemRow) (orders : List OrderRow)
    (customers : List CustomerRow) (products : List ProductRow)
    (payments : List PaymentRow) (reviews : List ReviewRow) :
    List OrderDataRow :=
  let od1 := innerJoin items orders (fun i => i.order_id) (fun o => o.order_id)
  let od2 := innerJoin od1 customers (fun p => p.2.customer_id) (fun c => c.customer_id)
  let od3 := leftJoin od2 products (fun p => p.1.1.product_id) (fun pr => pr.product_id)
  let od4 := leftJoin od3 payments (fun p => p.1.1.1.order_id) (fun pay => pay.order_id)
  let od5 := leftJoin od4 reviews (fun p => p.1.1.1.1.order_id) (fun rv => rv.order_id)
  od5.map (fun p =>
    { order_id := p.1.1.1.1.1.order_id
      product_id := p.1.1.1.1.1.product_id
      order_date := p.1.1.1.1.2.purchase_day
      weight_g := Option.bind p.1.1.2 (fun pr => pr.weight_g)
      length_cm := Option.bind p.1.1.2 (fun pr => pr.length_cm)
      height_cm := Option.bind p.1.1.2 (fun pr => pr.height_cm)
      width_cm := Option.bind p.1.1.2 (fun pr => pr.width_cm)
      payment_value := Option.bind p.1.2 (fun pay => pay.payment_value)
      review_score := Option.bind p.2 (fun rv => rv.review_score) })

/-- Lexicographic order on `(product_id, order_date)` keys, the order
pandas sorts grouped keys and `sort_values(['product_id','order_date'])`
sorts rows by. -/
def pairLe (a b : Nat × Nat) : Prop :=
  a.1 < b.1 ∨ (a.1 = b.1 ∧ a.2 ≤ b.2)

instance : DecidableRel pairLe := fun a b => by
  unfold pairLe; infer_instance

instance : IsTotal (Nat × Nat) pairLe := by
  constructor
  intro a b
  rcases Nat.lt_trichotomy a.1 b.1 with h | h | h
  · exact Or.inl (Or.inl h)
  · rcases Nat.le_total a.2 b.2 with h2 | h2
    · exact Or.inl (Or.inr ⟨h, h2⟩)
    · exact Or.inr (Or.inr ⟨h.symm, h2⟩)
  · exact Or.inr (Or.inl h)

instance : IsTrans (Nat × Nat) pairLe := by
  constructor
  intro a b c hab hbc
  rcases hab with h | ⟨h, h2⟩
  · rcases hbc with h' | ⟨h', _⟩
    · exact Or.inl (h.trans h')
    · exact Or.inl (h' ▸ h)
  · rcases hbc with h' | ⟨h', h2'⟩
    · exact Or.inl (h ▸ h')
    · exact Or.inr ⟨h.trans h', h2.trans h2'⟩

/-- `groupby(keys, sort=True).size()`: one row per distinct key, in sorted
key order, whose value counts the key's occurrences. -/
def groupSize (keys : List (Nat × Nat)) : List ((Nat × Nat) × Nat) :=
  (List.insertionSort pairLe keys.dedup).map (fun k => (k, keys.count k))

/-- Order on demand rows comparing their `(product_id, order_date)` keys,
as `sort_values(['product_id','order_date'])` does. -/
def demandLe (a b : (Nat × Nat) × Nat) : Prop := pairLe a.1 b.1

instance : DecidableRel demandLe := fun a b => by
  unfold demandLe; infer_instance

instance : IsTotal ((Nat × Nat) × Nat) demandLe :=
  ⟨fun a b => IsTotal.total (r := pairLe) a.1 b.1⟩

instance : IsTrans ((Nat × Nat) × Nat) demandLe :=
  ⟨fun _ _ _ hab hbc => Trans.trans (r := pairLe) (s := pairLe) hab hbc⟩

/-- Lines 127-131: `demand_df`, the per-`(product_id, order_date)` unit
counts, re-sorted by `sort_values(['product_id','order_date'])`.  A row is
`((product_id, order_date), units)`. -/
def olistDemand (od : List OrderDataRow) : List ((Nat × Nat) × Nat) :=
  List.insertionSort demandLe
    (groupSize (od.map (fun r => (r.product_id, r.order_date))))

/-- Column `lag_L` of `demand_df`:
`demand_df.groupby('product_id')['units'].shift(lag)` (line 133). -/
def olistLag (L : Nat) (od : List OrderDataRow) : List (Option Nat) :=
  groupShift L ((olistDemand od).map (fun r => (r.1.1, r.2)))

/-- One row of `product_stats` (lines 136-144). -/
structure ProductStat where
  product_id : Nat
  avg_price : Option ℚ
  avg_review : Option ℚ
  avg_weight : Option ℚ
  avg_length : Option ℚ
  avg_height : Option ℚ
  avg_width : Option ℚ
  n_orders : Nat
deriving DecidableEq, Repr

/-- Lines 136-144: `order_data.groupby('product_id').agg(...)`: one row per
distinct product, in sorted order; each mean ignores missing values of its
measure column, and `n_orders` counts distinct `order_id`s. -/
def productStats (od : List OrderDataRow) : List ProductStat :=
  (List.insertionSort (fun a b => a ≤ b) (od.map (fun r => r.product_id)).dedup).map
    (fun p =>
      let g := od.filter (fun r => decide (r.product_id = p))
      { product_id := p
        avg_price := optMean (g.filterMap (fun r => r.payment_value))
        avg_review := optMean (g.filterMap (fun r => r.review_score))
        avg_weight := optMean (g.filterMap (fun r => r.weight_g))
        avg_length := optMean (g.filterMap (fun r => r.length_cm))
        avg_height := optMean (g.filterMap (fun r => r.height_cm))
        avg_width := optMean (g.filterMap (fun r => r.width_cm))
        n_orders := (g.map (fun r => r.order_id)).dedup.length })

/-- Line 147: `demand_df.merge(product_stats, on='product_id', how='left')`,
the rows of the returned feature table (the lag columns ride along
positionally and neither add nor remove rows). -/
def olistFeatures (items : List ItemRow) (orders : List OrderRow)
    (customers : List CustomerRow) (products : List ProductRow)
    (payments : List PaymentRow) (reviews : List ReviewRow) :
    List (((Nat × Nat) × Nat) × Option ProductStat) :=
  let od := olistOrderData items orders customers products payments reviews
  leftJoin (olistDemand od) (productStats od) (fun r => r.1.1) (fun s => s.product_id)

/-! ## Toy inputs (the spec's concrete scenario and a variant of it) -/

/-- The spec's toy grid: 2 entities with 10 days of sales
`[1..10]` and `[10..1]`. -/
def toyA : List SalesRow :=
  [⟨1, 1, 1, [1, 2, 3, 4, 5, 6, 7, 8, 9, 10]⟩,
   ⟨2, 2, 1, [10, 9, 8, 7, 6, 5, 4, 3, 2, 1]⟩]

/-- The same grid with entity 1 unchanged and entity 2's sales replaced by
`[100, 200, …, 1000]`. -/
def toyB : List SalesRow :=
  [⟨1, 1, 1, [1, 2, 3, 4, 5, 6, 7, 8, 9, 10]⟩,
   ⟨2, 2, 1, [100, 200, 300, 400, 500, 600, 700, 800, 900, 1000]⟩]

/-- The per-entity shifted sales series of `toyA` in frame (day-major)
order: entity 1 and entity 2 interleave. -/
def shiftedA : List (Option ℚ) :=
  [none, none, some 1, some 10, some 2, some 9, some 3, some 8, some 4,
   some 7, some 5, some 6, some 6, some 5, some 7, some 4, some 8, some 3,
   some 9, some 2]

/-- The per-entity shifted sales series of `toyB` in frame order. -/
def shiftedB : List (Option ℚ) :=
  [none, none, some 1, some 100, some 2, some 200, some 3, some 300, some 4,
   some 400, some 5, some 500, some 6, some 600, some 7, some 700, some 8,
   some 800, some 9, some 900]

/-- Reading one cell of a rolling column: window and minimum-periods test,
spelled out. -/
theorem rollingAgg_getElem (W : Nat) (f : List ℚ → ℚ) (xs : List (Option ℚ))
    (i : Nat) (h : i < xs.length) :
    (rollingAgg W f xs)[i]? =
      some (if W ≤ (((xs.take (i + 1)).drop (i + 1 - W)).filterMap id).length
        then some (f (((xs.take (i + 1)).drop (i + 1 - W)).filterMap id))
        else none) := by
  simp [rollingAgg, List.getElem?_map, List.getElem?_range, h]

/-- A closed witness that `rollingAgg_getElem` applies at a concrete cell. -/
theorem rollingAgg_getElem_witness :
    (2 : Nat) < ([none, some 1, some 2] : List (Option ℚ)).length ∧
    (rollingAgg 2 meanQ [none, some 1, some 2])[2]? =
      some (if 2 ≤ (((([none, some 1, some 2] : List (Option ℚ)).take 3).drop 1).filterMap id).length
        then some (meanQ (((([none, some 1, some 2] : List (Option ℚ)).take 3).drop 1).filterMap id))
        else none) :=
  ⟨by decide, rollingAgg_getElem 2 meanQ [none, some 1, some 2] 2 (by decide)⟩

/-- The shifted series of `toyA` is `shiftedA` (pure list computation). -/
theorem shiftedA_eq : groupShift 1 (m5KV none toyA 10 [] []) = shiftedA := by
  decide

/-- The shifted series of `toyB` is `shiftedB`. -/
theorem shiftedB_eq : groupShift 1 (m5KV none toyB 10 [] []) = shiftedB := by
  decide

/-- C1: refuted on the code.  `toyA` and `toyB` hold identical data for
entity 1 and differ only in entity 2's sales, yet `rolling_mean_7` (and the
rolling variance, hence `rolling_std_7`) at the row of entity 1, day 9
changes from `6` (and `14/3`) to `2130/7` (and `2947355/21`): the rolling
statistics of an entity depend numerically on other entities' observations,
because line 65 applies `.rolling(window)` to the group-shifted series of
the whole frame instead of rolling within each group. -/
theorem c1_rolling_mixes_entities :
    toyA.head? = toyB.head? ∧
    (m5Df none toyA 10 [] [])[18]?.map (fun t => (t.1.1.sid, t.1.1.day)) = some (1, 9) ∧
    (m5Df none toyB 10 [] [])[18]?.map (fun t => (t.1.1.sid, t.1.1.day)) = some (1, 9) ∧
    (m5RollingMean 7 none toyA 10 [] [])[18]? = some (some 6) ∧
    (m5RollingMean 7 none toyB 10 [] [])[18]? = some (some (2130 / 7)) ∧
    (m5RollingVar 7 none toyA 10 [] [])[18]? = some (some (14 / 3)) ∧
    (m5RollingVar 7 none toyB 10 [] [])[18]? = some (some (2947355 / 21)) ∧
    (2130 : ℚ) / 7 ≠ 6 := by
  refine ⟨by decide, by decide, by decide, ?_, ?_, ?_, ?_, by norm_num⟩
  · simp only [m5RollingMean, shiftedA_eq]
    rw [rollingAgg_getElem 7 meanQ shiftedA 18 (by decide)]
    have h : ((shiftedA.take 19).drop 12).filterMap id = [6, 5, 7, 4, 8, 3, 9] := by decide
    rw [h]; norm_num [meanQ]
  · simp only [m5RollingMean, shiftedB_eq]
    rw [rollingAgg_getElem 7 meanQ shiftedB 18 (by decide)]
    have h : ((shiftedB.take 19).drop 12).filterMap id = [6, 600, 7, 700, 8, 800, 9] := by decide
    rw [h]; norm_num [meanQ]
  · simp only [m5RollingVar, shiftedA_eq]
    rw [rollingAgg_getElem 7 sampleVarQ shiftedA 18 (by decide)]
    have h : ((shiftedA.take 19).drop 12).filterMap id = [6, 5, 7, 4, 8, 3, 9] := by decide
    rw [h]; norm_num [sampleVarQ, meanQ]
  · simp only [m5RollingVar, shiftedB_eq]
    rw [rollingAgg_getElem 7 sampleVarQ shiftedB 18 (by decide)]
    have h : ((shiftedB.take 19).drop 12).filterMap id = [6, 600, 7, 700, 8, 800, 9] := by decide
    rw [h]; norm_num [sampleVarQ, meanQ]

/-- C3: refuted on the code.  In `toyA`, row 8 of the frame is entity 1 at
day 4, which has only 4 prior observations of entity 1 — the claim demands
a missing `rolling_mean_7` there — yet the column holds `37/7`: the
minimum-periods test runs over the interleaved frame-wide window
(7 non-missing shifted values, 4 of them belonging to entity 2), again
because line 65 rolls over the whole frame instead of within the group. -/
theorem c3_min_periods_not_per_entity :
    (m5Df none toyA 10 [] [])[8]?.map (fun t => (t.1.1.sid, t.1.1.day)) = some (1, 4) ∧
    ((m5KV none toyA 10 [] []).take 8).countP (fun p => decide (p.1 = 1)) = 4 ∧
    (m5RollingMean 7 none toyA 10 [] [])[8]? = some (some (37 / 7)) := by
  refine ⟨by decide, by decide, ?_⟩
  simp only [m5RollingMean, shiftedA_eq]
  rw [rollingAgg_getElem 7 meanQ shiftedA 8 (by decide)]
  have h : ((shiftedA.take 9).drop 2).filterMap id = [1, 10, 2, 9, 3, 8, 4] := by decide
  rw [h]; norm_num [meanQ]

/-- C4, counterexample: on the spec's toy grid, `rolling_mean_7` at the row
of entity 1, day 9 is not `5.0` (it is `6.0`). -/
theorem c4_counterexample :
    (m5RollingMean 7 none toyA 10 [] [])[18]? ≠ some (some 5) := by
  have h6 : (m5RollingMean 7 none toyA 10 [] [])[18]? = some (some 6) := by
    simp only [m5RollingMean, shiftedA_eq]
    rw [rollingAgg_getElem 7 meanQ shiftedA 18 (by decide)]
    have h : ((shiftedA.take 19).drop 12).filterMap id = [6, 5, 7, 4, 8, 3, 9] := by decide
    rw [h]; norm_num [meanQ]
  rw [h6]
  intro hc
  have : (6 : ℚ) = 5 := by injection (Option.some.inj hc)
  norm_num at this

/-- C4, amended: on the toy grid, `lag_7` at day index 9 is `3` for
entity 1 and `8` for entity 2, and `rolling_mean_7` at day index 9 for
entity 1 is `6.0` (the shift-by-1 window at day 9 ends at day 8; here the
frame-wide window of line 65 happens to give the same mean `6.0`). -/
theorem c4_toy_grid :
    (m5Df none toyA 10 [] [])[18]?.map (fun t => (t.1.1.sid, t.1.1.day)) = some (1, 9) ∧
    (m5Df none toyA 10 [] [])[19]?.map (fun t => (t.1.1.sid, t.1.1.day)) = some (2, 9) ∧
    (m5Lag 7 none toyA 10 [] [])[18]? = some (some 3) ∧
    (m5Lag 7 none toyA 10 [] [])[19]? = some (some 8) ∧
    (m5RollingMean 7 none toyA 10 [] [])[18]? = some (some 6) := by
  refine ⟨by decide, by decide, by decide, by decide, ?_⟩
  simp only [m5RollingMean, shiftedA_eq]
  rw [rollingAgg_getElem 7 meanQ shiftedA 18 (by decide)]
  have h : ((shiftedA.take 19).drop 12).filterMap id = [6, 5, 7, 4, 8, 3, 9] := by decide
  rw [h]; norm_num [meanQ]

/-- C9: refuted on the code.  On `toyB`, the row of entity 1 at day 9 is
included both in the unbounded run (frame position 18) and in the
`nrows = 1` run (frame position 9), but its `rolling_mean_7` is `2130/7`
in the former and `6` in the latter: the row cap changes computed feature
values for included rows, because the frame-wide rolling window of line 65
spans rows of entities that the cap removes. -/
theorem c9_row_cap_changes_features :
    (m5Df none toyB 10 [] [])[18]?.map (fun t => (t.1.1.sid, t.1.1.day)) = some (1, 9) ∧
    (m5Df (some 1) toyB 10 [] [])[9]?.map (fun t => (t.1.1.sid, t.1.1.day)) = some (1, 9) ∧
    (m5RollingMean 7 (some 1) toyB 10 [] [])[9]? = some (some 6) ∧
    (m5RollingMean 7 none toyB 10 [] [])[18]? = some (some (2130 / 7)) ∧
    (2130 : ℚ) / 7 ≠ 6 := by
  refine ⟨by decide, by decide, ?_, ?_, by norm_num⟩
  · have hs : groupShift 1 (m5KV (some 1) toyB 10 [] []) =
        [none, some 1, some 2, some 3, some 4, some 5, some 6, some 7, some 8, some 9] := by
      decide
    simp only [m5RollingMean, hs]
    rw [rollingAgg_getElem 7 meanQ _ 9 (by decide)]
    have h : ((([none, some 1, some 2, some 3, some 4, some 5, some 6, some 7, some 8,
        some 9] : List (Option ℚ)).take 10).drop 3).filterMap id =
        [3, 4, 5, 6, 7, 8, 9] := by decide
    rw [h]; norm_num [meanQ]
  · simp only [m5RollingMean, shiftedB_eq]
    rw [rollingAgg_getElem 7 meanQ shiftedB 18 (by decide)]
    have h : ((shiftedB.take 19).drop 12).filterMap id = [6, 600, 7, 700, 8, 800, 9] := by decide
    rw [h]; norm_num [meanQ]

/-! ## Join lemmas (C5, C6) -/

/-- Filtering by a key that occurs at most once (right keys without
duplicates) returns the `find?` result, as a list. -/
theorem filter_key_nodup {B K : Type} [DecidableEq K] (kb : B → K) (k : K)
    (r : List B) (h : (r.map kb).Nodup) :
    r.filter (fun b => decide (kb b = k)) =
      (r.find? (fun b => decide (kb b = k))).toList := by
  induction r with
  | nil => simp
  | cons b rest ih =>
    have h' := h
    rw [List.map_cons, List.nodup_cons] at h'
    obtain ⟨hb, hrest⟩ := h'
    by_cases hk : kb b = k
    · have hnone : rest.filter (fun x => decide (kb x = k)) = [] := by
        apply List.filter_eq_nil_iff.mpr
        intro x hx
        simp only [decide_eq_true_eq]
        intro hxk
        exact hb (by rw [hk, ← hxk]; exact List.mem_map_of_mem kb hx)
      simp [List.filter_cons, List.find?_cons, hk, hnone]
    · simp only [List.filter_cons, List.find?_cons, hk, decide_eq_true_eq]
      simpa using ih hrest

/-- With unique right keys, a left join pairs every left row, in order,
with its (at most one) match: the join is a `map` over the left table. -/
theorem leftJoin_eq_map {A B K : Type} [DecidableEq K] (l : List A) (r : List B)
    (ka : A → K) (kb : B → K) (h : (r.map kb).Nodup) :
    leftJoin l r ka kb =
      l.map (fun a => (a, r.find? (fun b => decide (kb b = ka a)))) := by
  induction l with
  | nil => rfl
  | cons a rest ih =>
    have hstep : leftJoin (a :: rest) r ka kb =
        (match r.filter (fun b => decide (kb b = ka a)) with
         | [] => [(a, none)]
         | bs => bs.map (fun b => (a, some b))) ++ leftJoin rest r ka kb := by
      simp [leftJoin, List.flatMap_cons]
    rw [hstep, ih, filter_key_nodup kb (ka a) r h]
    cases hf : r.find? (fun b => decide (kb b = ka a)) with
    | none => simp [hf]
    | some b => simp [hf]

/-- A closed instance of `leftJoin_eq_map`. -/
theorem leftJoin_eq_map_witness :
    ((([(10, 1)] : List (Nat × Nat)).map Prod.fst).Nodup) ∧
    leftJoin [0, 10] [(10, 1)] id Prod.fst =
      [0, 10].map (fun a => (a, List.find? (fun b => decide (b.1 = a)) [(10, 1)])) :=
  ⟨by decide, leftJoin_eq_map [0, 10] [(10, 1)] id Prod.fst (by decide)⟩

/-- The key column of `product_stats` is the deduplicated, sorted product
list: `product_stats` is uniquely keyed by construction. -/
theorem productStats_keys (od : List OrderDataRow) :
    (productStats od).map ProductStat.product_id =
      List.insertionSort (fun a b => a ≤ b) (od.map (fun r => r.product_id)).dedup := by
  unfold productStats
  generalize List.insertionSort (fun a b => a ≤ b) (od.map (fun r => r.product_id)).dedup = xs
  induction xs with
  | nil => rfl
  | cons x xs ih => simp only [List.map_cons, List.map_map] at ih ⊢; rw [ih]

/-- C6: a join against a uniquely-keyed right table preserves the left
table's row count — generically, and at the pipeline's three such join
sites: the calendar join on `d`, the price join on
`(store_id, item_id, wm_yr_wk)`, and the per-product aggregate merge of
`prepare_olist_features` (whose right side, `product_stats`, is uniquely
keyed by construction, so its conjunct needs no hypothesis). -/
theorem c6_unique_key_join_preserves_rows :
    (∀ {A B K : Type} [DecidableEq K] (l : List A) (r : List B)
        (ka : A → K) (kb : B → K), (r.map kb).Nodup →
        (leftJoin l r ka kb).length = l.length) ∧
    (∀ (df : List LongRow) (cal : List CalRow), (cal.map CalRow.d).Nodup →
        (m5WithCalendar df cal).length = df.length) ∧
    (∀ (df : List (LongRow × Option CalRow)) (prices : List PriceRow),
        (prices.map (fun p => (p.store_id, p.item_id, p.wm_yr_wk))).Nodup →
        (m5WithPrices df prices).length = df.length) ∧
    (∀ (items : List ItemRow) (orders : List OrderRow)
        (customers : List CustomerRow) (products : List ProductRow)
        (payments : List PaymentRow) (reviews : List ReviewRow),
        (olistFeatures items orders customers products payments reviews).length =
          (olistDemand (olistOrderData items orders customers products payments reviews)).length) := by
  have base : ∀ {A B K : Type} [DecidableEq K] (l : List A) (r : List B)
      (ka : A → K) (kb : B → K), (r.map kb).Nodup →
      (leftJoin l r ka kb).length = l.length := by
    intro A B K _ l r ka kb h
    rw [leftJoin_eq_map l r ka kb h]
    exact List.length_map _ _
  refine ⟨base, ?_, ?_, ?_⟩
  · intro df cal h
    exact base df cal _ _ h
  · intro df prices h
    refine base df prices _ _ ?_
    have : (prices.map fun p => (p.store_id, p.item_id, some p.wm_yr_wk)) =
        (prices.map (fun p => (p.store_id, p.item_id, p.wm_yr_wk))).map
          (fun t => (t.1, t.2.1, some t.2.2)) := by
      simp [List.map_map, Function.comp]
    rw [this]
    refine h.map ?_
    intro x y hxy
    obtain ⟨x1, x2, x3⟩ := x
    obtain ⟨y1, y2, y3⟩ := y
    simp only [Prod.mk.injEq, Option.some.injEq] at hxy
    obtain ⟨h1, h2, h3⟩ := hxy
    simp [h1, h2, h3]
  · intro items orders customers products payments reviews
    refine base _ _ _ _ ?_
    show ((productStats _).map ProductStat.product_id).Nodup
    rw [productStats_keys]
    exact ((List.perm_insertionSort _ _).nodup_iff).mpr (List.nodup_dedup _)

/-- A closed witness applying `c6_unique_key_join_preserves_rows` at
concrete tables. -/
theorem c6_witness :
    (([⟨9, 900, 42⟩] : List CalRow).map CalRow.d).Nodup ∧
    (m5WithCalendar (meltM5 toyA 10) [⟨9, 900, 42⟩]).length = (meltM5 toyA 10).length ∧
    (olistFeatures [⟨1, 5⟩] [⟨1, 2, 100⟩] [⟨2, 7⟩] [] [] []).length =
      (olistDemand (olistOrderData [⟨1, 5⟩] [⟨1, 2, 100⟩] [⟨2, 7⟩] [] [] [])).length :=
  ⟨by decide,
   c6_unique_key_join_preserves_rows.2.1 (meltM5 toyA 10) [⟨9, 900, 42⟩] (by decide),
   c6_unique_key_join_preserves_rows.2.2.2 [⟨1, 5⟩] [⟨1, 2, 100⟩] [⟨2, 7⟩] [] [] []⟩

/-- C5, counterexample: the claim fails at a concrete input.  With one
order item whose `order_id` (1) has no match in the (empty) orders table,
`order_data` comes out empty: the merge of line 112 uses the default inner
join and removes the unmatched left row, where the claim says every join
keeps it with missing values. -/
theorem c5_counterexample :
    ([⟨1, 5⟩] : List ItemRow).length = 1 ∧
    olistOrderData [⟨1, 5⟩] [] [] [] [] [] = [] := by
  constructor
  · decide
  · rfl

/-- C5, amended: every `how='left'` join of the pipeline keeps each left
row — an unmatched one exactly once, paired with missing joined values —
and never errors; but the two merges with the default inner join
(items×orders and ×customers, lines 112-113) drop a left row whose key has
no match. -/
theorem c5_left_joins_keep_unmatched_rows :
    (∀ {A B K : Type} [DecidableEq K] (l : List A) (r : List B)
        (ka : A → K) (kb : B → K) (a : A), a ∈ l →
        (∀ b ∈ r, kb b ≠ ka a) → (a, (none : Option B)) ∈ leftJoin l r ka kb) ∧
    (∀ {A B K : Type} [DecidableEq K] (l : List A) (r : List B)
        (ka : A → K) (kb : B → K) (a : A), a ∈ l →
        ∃ ob, (a, ob) ∈ leftJoin l r ka kb) ∧
    (∀ {A B K : Type} [DecidableEq K] (l : List A) (r : List B)
        (ka : A → K) (kb : B → K) (a : A),
        (∀ b ∈ r, kb b ≠ ka a) → ∀ b, (a, b) ∉ innerJoin l r ka kb) := by
  refine ⟨?_, ?_, ?_⟩
  · intro A B K _ l r ka kb a ha hnone
    have hfil : r.filter (fun b => decide (kb b = ka a)) = [] := by
      apply List.filter_eq_nil_iff.mpr
      intro b hb
      simpa using hnone b hb
    apply List.mem_flatMap.mpr
    exact ⟨a, ha, by rw [hfil]; exact List.mem_singleton.mpr rfl⟩
  · intro A B K _ l r ka kb a ha
    cases hfil : r.filter (fun b => decide (kb b = ka a)) with
    | nil =>
      exact ⟨none, List.mem_flatMap.mpr ⟨a, ha, by rw [hfil]; exact List.mem_singleton.mpr rfl⟩⟩
    | cons b bs =>
      refine ⟨some b, List.mem_flatMap.mpr ⟨a, ha, ?_⟩⟩
      rw [hfil]
      exact List.mem_map.mpr ⟨b, List.mem_cons_self b bs, rfl⟩
  · intro A B K _ l r ka kb a hnone b hmem
    obtain ⟨x, _, hx⟩ := List.mem_flatMap.mp hmem
    obtain ⟨y, hy, hxy⟩ := List.mem_map.mp hx
    obtain ⟨hy1, hy2⟩ := List.mem_filter.mp hy
    have hax : x = a := congrArg Prod.fst hxy
    have hkey : kb y = ka x := by simpa using hy2
    exact hnone y hy1 (hax ▸ hkey)

/-- A closed witness applying `c5_left_joins_keep_unmatched_rows` at
concrete tables: key 0 has no match on the right. -/
theorem c5_witness :
    ((0 : Nat) ∈ [0]) ∧ (∀ b ∈ [(1, 5)], Prod.fst b ≠ (0 : Nat)) ∧
    ((0, (none : Option (Nat × Nat))) ∈ leftJoin [0] [(1, 5)] id Prod.fst) ∧
    (∃ ob, ((0 : Nat), ob) ∈ leftJoin [0] [(1, 5)] id Prod.fst) ∧
    (((0 : Nat), ((1, 5) : Nat × Nat)) ∉ innerJoin [0] [(1, 5)] id Prod.fst) :=
  ⟨by decide, by decide,
   c5_left_joins_keep_unmatched_rows.1 [0] [(1, 5)] id Prod.fst 0 (by decide) (by decide),
   c5_left_joins_keep_unmatched_rows.2.1 [0] [(1, 5)] id Prod.fst 0 (by decide),
   c5_left_joins_keep_unmatched_rows.2.2 [0] [(1, 5)] id Prod.fst 0 (by decide) (1, 5)⟩

/-! ## Reshape conservation (C7) -/

/-- Sum of a concatenation of blocks is the sum of the block sums. -/
theorem sum_flatMapQ {α : Type} (l : List α) (f : α → List ℚ) :
    (l.flatMap f).sum = (l.map (fun a => (f a).sum)).sum := by
  induction l with
  | nil => rfl
  | cons a l ih => simp [List.flatMap_cons, List.sum_append, ih]

/-- Pointwise sums split. -/
theorem sum_map_addQ {α : Type} (l : List α) (f g : α → ℚ) :
    (l.map (fun a => f a + g a)).sum = (l.map f).sum + (l.map g).sum := by
  induction l with
  | nil => simp
  | cons a l ih =>
    simp only [List.map_cons, List.sum_cons, ih]
    ring

/-- Reading a list back off by positions. -/
theorem getD_range_eq (l : List ℚ) :
    (List.range l.length).map (fun d => l.getD d 0) = l := by
  induction l with
  | nil => rfl
  | cons x xs ih =>
    rw [List.length_cons, List.range_succ_eq_map, List.map_cons, List.map_map]
    have htail : List.map ((fun d => (x :: xs).getD d 0) ∘ Nat.succ)
        (List.range xs.length) = xs :=
      (List.map_congr_left (fun d _ => rfl)).trans ih
    rw [htail]
    rfl

/-- The `sales` column of the melted frame, block by block. -/
theorem melt_sales_col (sales : List SalesRow) (D : Nat) :
    (meltM5 sales D).map (fun row => row.sales) =
      (List.range D).flatMap (fun d => sales.map (fun r => r.vals.getD d 0)) := by
  simp [meltM5, List.map_flatMap, List.map_map]
  rfl

/-- Exchanging the two summations of the melted frame. -/
theorem melt_sum_swap (D : Nat) :
    ∀ sales : List SalesRow, (∀ r ∈ sales, r.vals.length = D) →
      ((List.range D).map (fun d => (sales.map (fun r => r.vals.getD d 0)).sum)).sum =
        (sales.map (fun r => r.vals.sum)).sum := by
  intro sales
  induction sales with
  | nil => intro _; simp
  | cons r rest ih =>
    intro hlen
    have hr : r.vals.length = D := hlen r (List.mem_cons_self r rest)
    have hrest := fun x hx => hlen x (List.mem_cons_of_mem r hx)
    simp only [List.map_cons, List.sum_cons]
    rw [sum_map_addQ (List.range D) (fun d => r.vals.getD d 0)
      (fun d => ((rest.map (fun x => x.vals.getD d 0))).sum), ih hrest]
    congr 1
    rw [← hr, getD_range_eq]

/-- Sum of a one-hot indicator over the day range. -/
theorem sum_indicator_range (d : Nat) :
    ∀ D : Nat, d < D →
      ((List.range D).map (fun x => if x = d then 1 else 0)).sum = 1 := by
  intro D
  induction D with
  | zero => omega
  | succ n ih =>
    intro h
    rw [List.range_succ, List.map_append, List.sum_append]
    by_cases hd : d = n
    · subst hd
      have hz : ((List.range d).map (fun x => if x = d then 1 else 0)).sum = 0 := by
        apply List.sum_eq_zero
        intro x hx
        obtain ⟨y, hy, hxy⟩ := List.mem_map.mp hx
        have : y ≠ d := Nat.ne_of_lt (List.mem_range.mp hy)
        simp [this] at hxy
        omega
      simp [hz]
    · have hdn : d < n := by omega
      have hnd : n ≠ d := fun he => hd he.symm
      simp [ih hdn, hnd]

/-- A key that occurs in a duplicate-free key column is hit exactly once. -/
theorem countP_key_nodup {α K : Type} [DecidableEq K] (key : α → K) (l : List α)
    (hn : (l.map key).Nodup) (a : α) (ha : a ∈ l) :
    l.countP (fun x => decide (key x = key a)) = 1 := by
  induction l with
  | nil => cases ha
  | cons b rest ih =>
    rw [List.map_cons, List.nodup_cons] at hn
    obtain ⟨hb, hrest⟩ := hn
    rcases List.mem_cons.mp ha with rfl | hmem
    · have hz : rest.countP (fun x => decide (key x = key a)) = 0 := by
        rw [List.countP_eq_zero]
        intro x hx
        simp only [decide_eq_true_eq]
        intro hkey
        exact hb (hkey ▸ List.mem_map_of_mem key hx)
      rw [List.countP_cons, hz]
      simp
    · have hne : key b ≠ key a := by
        intro he
        exact hb (he ▸ List.mem_map_of_mem key hmem)
      rw [List.countP_cons, ih hrest hmem]
      simp [hne]

/-- C7: the wide-to-long reshape preserves every cell: row count is
entities × day columns; the sum of the `sales` column equals the sum of
all day cells of the wide input; and each `(entity, day)` pair appears in
exactly one row. -/
theorem c7_melt_conserves_cells :
    (∀ (sales : List SalesRow) (D : Nat),
        (meltM5 sales D).length = D * sales.length) ∧
    (∀ (sales : List SalesRow) (D : Nat),
        (∀ r ∈ sales, r.vals.length = D) →
        ((meltM5 sales D).map (fun row => row.sales)).sum =
          (sales.map (fun r => r.vals.sum)).sum) ∧
    (∀ (sales : List SalesRow) (D : Nat) (r : SalesRow) (d : Nat),
        (sales.map (fun x => x.sid)).Nodup → r ∈ sales → d < D →
        (meltM5 sales D).countP
          (fun row => decide (row.sid = r.sid ∧ row.day = d)) = 1) := by
  refine ⟨?_, ?_, ?_⟩
  · intro sales D
    induction D with
    | zero => simp [meltM5]
    | succ n ih =>
      have hsplit : meltM5 sales (n + 1) = meltM5 sales n ++
          sales.map (fun r => ⟨r.sid, r.item, r.store, n, r.vals.getD n 0⟩) := by
        rw [meltM5, meltM5, List.range_succ, List.flatMap_append, List.flatMap_cons,
          List.flatMap_nil, List.append_nil]
      rw [hsplit, List.length_append, ih, List.length_map, Nat.succ_mul]
  · intro sales D hlen
    rw [melt_sales_col, sum_flatMapQ]
    exact melt_sum_swap D sales hlen
  · intro sales D r d hnodup hmem hd
    have hblock : ∀ d' : Nat, (sales.map (fun x : SalesRow =>
          (⟨x.sid, x.item, x.store, d', x.vals.getD d' 0⟩ : LongRow))).countP
          (fun row => decide (row.sid = r.sid ∧ row.day = d)) =
        if d' = d then 1 else 0 := by
      intro d'
      rw [List.countP_map]
      by_cases hdd : d' = d
      · subst hdd
        have hfun : ((fun row : LongRow => decide (row.sid = r.sid ∧ row.day = d')) ∘
            (fun x : SalesRow => (⟨x.sid, x.item, x.store, d', x.vals.getD d' 0⟩ : LongRow))) =
            (fun x : SalesRow => decide (x.sid = r.sid)) := by
          funext x
          simp
        rw [hfun, if_pos rfl]
        exact countP_key_nodup (fun x => x.sid) sales hnodup r hmem
      · rw [if_neg hdd]
        apply List.countP_eq_zero.mpr
        intro x _
        simp [hdd]
    rw [meltM5, List.countP_flatMap]
    have hmapeq : (List.range D).map
        ((List.countP (fun row : LongRow => decide (row.sid = r.sid ∧ row.day = d))) ∘
          (fun d' => sales.map (fun x : SalesRow =>
            (⟨x.sid, x.item, x.store, d', x.vals.getD d' 0⟩ : LongRow)))) =
        (List.range D).map (fun d' => if d' = d then 1 else 0) :=
      List.map_congr_left (fun d' _ => hblock d')
    rw [hmapeq]
    exact sum_indicator_range d D hd

/-- A closed witness applying `c7_melt_conserves_cells` to the toy grid. -/
theorem c7_witness :
    ((meltM5 toyA 10).map (fun row => row.sales)).sum =
      (toyA.map (fun r => r.vals.sum)).sum ∧
    (meltM5 toyA 10).countP (fun row => decide (row.sid =
      (⟨1, 1, 1, [1, 2, 3, 4, 5, 6, 7, 8, 9, 10]⟩ : SalesRow).sid ∧ row.day = 9)) = 1 :=
  ⟨c7_melt_conserves_cells.2.1 toyA 10 (by decide),
   c7_melt_conserves_cells.2.2 toyA 10 ⟨1, 1, 1, [1, 2, 3, 4, 5, 6, 7, 8, 9, 10]⟩ 9
     (by decide) (by decide) (by decide)⟩

/-! ## Static per-entity aggregates (C8) -/

/-- `product_stats` is uniquely keyed on `product_id`. -/
theorem productStats_nodup (od : List OrderDataRow) :
    ((productStats od).map (fun s => s.product_id)).Nodup := by
  have h := productStats_keys od
  rw [show (fun s : ProductStat => s.product_id) = ProductStat.product_id from rfl, h]
  exact ((List.perm_insertionSort _ _).nodup_iff).mpr (List.nodup_dedup _)

/-- C8: static aggregate columns are constant within an entity, and the
per-entity means skip missing source values instead of coercing them to
zero.  Conjuncts: (1) two rows of the M5 frame with the same `id` carry the
same `avg_sell_price`; (2) appending a missing observation to a frame
leaves every existing row's group-transform mean unchanged; (3) two rows of
the Olist feature table with the same `product_id` carry the same joined
`product_stats` record; (4) concretely, a product whose two order rows have
payments `2` and missing gets `avg_price = 2` (the missing value is
excluded, not treated as `0`, which would give `1`). -/
theorem c8_static_columns_uniform :
    (∀ (nrows : Option Nat) (sales : List SalesRow) (D : Nat)
        (cal : List CalRow) (prices : List PriceRow) (i j : Nat)
        (ti tj : (LongRow × Option CalRow) × Option PriceRow),
        (m5Df nrows sales D cal prices)[i]? = some ti →
        (m5Df nrows sales D cal prices)[j]? = some tj →
        ti.1.1.sid = tj.1.1.sid →
        (m5AvgSellPrice nrows sales D cal prices)[i]? =
          (m5AvgSellPrice nrows sales D cal prices)[j]?) ∧
    (∀ {K : Type} [DecidableEq K] (df : List (K × Option ℚ)) (k : K),
        (transformMean (df ++ [(k, none)])).take df.length = transformMean df) ∧
    (∀ (items : List ItemRow) (orders : List OrderRow)
        (customers : List CustomerRow) (products : List ProductRow)
        (payments : List PaymentRow) (reviews : List ReviewRow)
        (i j : Nat) (ri rj : (((Nat × Nat) × Nat) × Option ProductStat)),
        (olistFeatures items orders customers products payments reviews)[i]? = some ri →
        (olistFeatures items orders customers products payments reviews)[j]? = some rj →
        ri.1.1.1 = rj.1.1.1 → ri.2 = rj.2) ∧
    ((productStats
        [⟨1, 1, 0, none, none, none, none, some 2, none⟩,
         ⟨2, 1, 0, none, none, none, none, none, none⟩]).map
      (fun s => (s.product_id, s.avg_price, s.n_orders)) = [(1, some 2, 2)]) := by
  refine ⟨?_, ?_, ?_, ?_⟩
  · intro nrows sales D cal prices i j ti tj hi hj hsid
    simp only [m5AvgSellPrice, transformMean, List.getElem?_map, hi, hj, Option.map_some']
    rw [hsid]
  · intro K _ df k
    unfold transformMean
    rw [List.map_append]
    rw [List.take_left' (by rw [List.length_map])]
    apply List.map_congr_left
    intro r _
    congr 1
    rw [List.filter_append, List.filterMap_append]
    have hz : (([((k, none) : K × Option ℚ)].filter
        (fun p => decide (p.1 = r.1))).filterMap (fun p => p.2)) = [] := by
      by_cases hk : k = r.1 <;> simp [List.filter_cons, hk]
    rw [hz, List.append_nil]
  · intro items orders customers products payments reviews i j ri rj hi hj hpid
    have heq : olistFeatures items orders customers products payments reviews =
        (olistDemand (olistOrderData items orders customers products payments reviews)).map
          (fun a => (a, (productStats
            (olistOrderData items orders customers products payments reviews)).find?
              (fun s => decide (s.product_id = a.1.1)))) := by
      unfold olistFeatures
      exact leftJoin_eq_map _ _ _ _
        (productStats_nodup (olistOrderData items orders customers products payments reviews))
    rw [heq, List.getElem?_map] at hi hj
    cases hdi : (olistDemand (olistOrderData items orders customers products payments reviews))[i]? with
    | none => rw [hdi] at hi; cases hi
    | some di =>
      rw [hdi] at hi
      cases hdj : (olistDemand (olistOrderData items orders customers products payments reviews))[j]? with
      | none => rw [hdj] at hj; cases hj
      | some dj =>
        rw [hdj] at hj
        simp only [Option.map_some'] at hi hj
        obtain rfl := Option.some.inj hi
        obtain rfl := Option.some.inj hj
        dsimp only at hpid ⊢
        rw [hpid]
  · have hone : ((([⟨1, 1, 0, none, none, none, none, some 2, none⟩,
        ⟨2, 1, 0, none, none, none, none, none, none⟩] : List OrderDataRow).map
          (fun r => r.product_id)).dedup) = [1] := by decide
    have hfil : ((([⟨1, 1, 0, none, none, none, none, some 2, none⟩,
        ⟨2, 1, 0, none, none, none, none, none, none⟩] : List OrderDataRow).filter
          (fun r => decide (r.product_id = 1))).filterMap (fun r => r.payment_value)) =
        [2] := by decide
    have hmean : optMean [(2 : ℚ)] = some 2 := by
      rw [optMean]
      norm_num
    simp only [productStats, hone, List.insertionSort, List.orderedInsert,
      List.map_cons, List.map_nil, hfil, hmean]
    decide

/-- A closed witness applying `c8_static_columns_uniform` at concrete
frames. -/
theorem c8_witness :
    (m5AvgSellPrice none toyA 10 [] [])[0]? = (m5AvgSellPrice none toyA 10 [] [])[2]? ∧
    (transformMean ([((1 : Nat), some (2 : ℚ))] ++ [(1, none)])).take 1 =
      transformMean [(1, some 2)] ∧
    ((((5, 100), 1), some (⟨5, none, none, none, none, none, none, 1⟩ : ProductStat)) :
        (((Nat × Nat) × Nat) × Option ProductStat)).2 =
      ((((5, 100), 1), some (⟨5, none, none, none, none, none, none, 1⟩ : ProductStat)) :
        (((Nat × Nat) × Nat) × Option ProductStat)).2 :=
  ⟨c8_static_columns_uniform.1 none toyA 10 [] [] 0 2
      ⟨⟨⟨1, 1, 1, 0, 1⟩, none⟩, none⟩ ⟨⟨⟨1, 1, 1, 1, 2⟩, none⟩, none⟩
      (by decide) (by decide) rfl,
   c8_static_columns_uniform.2.1 [(1, some 2)] 1,
   c8_static_columns_uniform.2.2.1 [⟨1, 5⟩] [⟨1, 2, 100⟩] [⟨2, 7⟩] [] [] [] 0 0
      (((5, 100), 1), some ⟨5, none, none, none, none, none, none, 1⟩)
      (((5, 100), 1), some ⟨5, none, none, none, none, none, none, 1⟩)
      (by decide) (by decide) rfl⟩

/-! ## Demand table shape (C10) -/

/-- The key column of `groupSize` is the sorted deduplicated key list. -/
theorem groupSize_keys (keys : List (Nat × Nat)) :
    (groupSize keys).map (fun r => r.1) = List.insertionSort pairLe keys.dedup := by
  unfold groupSize
  generalize List.insertionSort pairLe keys.dedup = xs
  induction xs with
  | nil => rfl
  | cons x xs ih => simp only [List.map_cons] at ih ⊢; rw [ih]

/-- C10: in the returned Olist feature table, every `(product_id,
order_date)` key appears in exactly one row, its `units` value counts that
key's occurrences among the order items (hence is at least 1), and every
row's key comes from an observed order item — a day with no sales produces
no row. -/
theorem c10_demand_rows_unique_positive :
    ∀ (items : List ItemRow) (orders : List OrderRow)
      (customers : List CustomerRow) (products : List ProductRow)
      (payments : List PaymentRow) (reviews : List ReviewRow),
      ((olistFeatures items orders customers products payments reviews).map
        (fun r => r.1.1)).Nodup ∧
      (∀ r ∈ olistFeatures items orders customers products payments reviews,
        r.1.1 ∈ (olistOrderData items orders customers products payments reviews).map
          (fun x => (x.product_id, x.order_date)) ∧
        r.1.2 = ((olistOrderData items orders customers products payments reviews).map
          (fun x => (x.product_id, x.order_date))).count r.1.1 ∧
        1 ≤ r.1.2) := by
  intro items orders customers products payments reviews
  have heq : olistFeatures items orders customers products payments reviews =
      (olistDemand (olistOrderData items orders customers products payments reviews)).map
        (fun a => (a, (productStats
          (olistOrderData items orders customers products payments reviews)).find?
            (fun s => decide (s.product_id = a.1.1)))) := by
    unfold olistFeatures
    exact leftJoin_eq_map _ _ _ _ (productStats_nodup _)
  rw [heq]
  generalize olistOrderData items orders customers products payments reviews = od
  constructor
  · rw [List.map_map]
    have hc : ((fun r : (((Nat × Nat) × Nat) × Option ProductStat) => r.1.1) ∘
        (fun a : ((Nat × Nat) × Nat) =>
          (a, (productStats od).find? (fun s => decide (s.product_id = a.1.1))))) =
        (fun a : ((Nat × Nat) × Nat) => a.1) := rfl
    rw [hc]
    have hperm : List.Perm ((olistDemand od).map (fun a => a.1))
        ((groupSize (od.map (fun x => (x.product_id, x.order_date)))).map (fun a => a.1)) :=
      (List.perm_insertionSort demandLe _).map _
    rw [hperm.nodup_iff, groupSize_keys]
    exact ((List.perm_insertionSort pairLe _).nodup_iff).mpr (List.nodup_dedup _)
  · intro r hr
    obtain ⟨a, ha, rfl⟩ := List.mem_map.mp hr
    have ha' : a ∈ groupSize (od.map (fun x => (x.product_id, x.order_date))) :=
      (List.perm_insertionSort demandLe _).mem_iff.mp ha
    obtain ⟨k, hk, rfl⟩ := List.mem_map.mp ha'
    have hk' : k ∈ (od.map (fun x => (x.product_id, x.order_date))).dedup :=
      (List.perm_insertionSort pairLe _).mem_iff.mp hk
    have hkk : k ∈ od.map (fun x => (x.product_id, x.order_date)) :=
      List.mem_dedup.mp hk'
    exact ⟨hkk, rfl, List.count_pos_iff.mpr hkk⟩

/-- A closed witness applying `c10_demand_rows_unique_positive` to a
one-item input. -/
theorem c10_witness :
    ((((5, 100), 1), some (⟨5, none, none, none, none, none, none, 1⟩ : ProductStat)) ∈
      olistFeatures [⟨1, 5⟩] [⟨1, 2, 100⟩] [⟨2, 7⟩] [] [] []) ∧
    (((5, 100) : Nat × Nat) ∈ (olistOrderData [⟨1, 5⟩] [⟨1, 2, 100⟩] [⟨2, 7⟩] [] [] []).map
      (fun x => (x.product_id, x.order_date))) ∧
    (1 : Nat) ≤ 1 :=
  have happ := (c10_demand_rows_unique_positive [⟨1, 5⟩] [⟨1, 2, 100⟩] [⟨2, 7⟩] [] [] []).2
    (((5, 100), 1), some ⟨5, none, none, none, none, none, none, 1⟩) (by decide)
  ⟨by decide, happ.1, happ.2.2⟩

/-! ## Lag columns are within-entity shifts (C2) -/

/-- The shift of one group's value sequence, on its own: position `t` holds
the value at position `t - L`, and the first `L` positions are missing. -/
def shiftOpt {V : Type} (L : Nat) (g : List V) : List (Option V) :=
  (List.range g.length).map (fun m => if L ≤ m then g[m - L]? else none)

/-- The entries of a column standing at the rows of group `k`, in frame
order (`col` is positionally aligned with `xs`). -/
def groupCol {K V W : Type} [DecidableEq K] (k : K) (xs : List (K × V))
    (col : List W) : List W :=
  ((xs.zip col).filter (fun p => decide (p.1.1 = k))).map (fun p => p.2)

theorem groupShift_length {K V : Type} [DecidableEq K] (L : Nat)
    (xs : List (K × V)) : (groupShift L xs).length = xs.length := by
  simp [groupShift]

/-- Appending one row to the frame appends one entry to the shifted column
and changes nothing before it. -/
theorem groupShift_append_single {K V : Type} [DecidableEq K] (L : Nat)
    (xs : List (K × V)) (kv : K × V) :
    groupShift L (xs ++ [kv]) = groupShift L xs ++
      [if L ≤ ((xs.filter (fun p => decide (p.1 = kv.1))).map (fun p => p.2)).length
       then ((xs.filter (fun p => decide (p.1 = kv.1))).map (fun p => p.2))[((xs.filter
         (fun p => decide (p.1 = kv.1))).map (fun p => p.2)).length - L]?
       else none] := by
  unfold groupShift
  have hlen : (xs ++ [kv]).length = xs.length + 1 := by simp
  rw [hlen, List.range_succ, List.map_append]
  congr 1
  · apply List.map_congr_left
    intro i hi
    have hi' : i < xs.length := List.mem_range.mp hi
    rw [List.getElem?_append_left hi', List.take_append_of_le_length (Nat.le_of_lt hi')]
  · simp only [List.map_cons, List.map_nil]
    have h1 : (xs ++ [kv])[xs.length]? = some kv := by
      rw [List.getElem?_append_right (Nat.le_refl _)]
      simp
    rw [h1, List.take_left]

theorem shiftOpt_length {V : Type} (L : Nat) (g : List V) :
    (shiftOpt L g).length = g.length := by
  simp [shiftOpt]

/-- Appending one value to a group appends one entry to its shift. -/
theorem shiftOpt_append_single {V : Type} (L : Nat) (hL : 1 ≤ L) (g : List V)
    (v : V) :
    shiftOpt L (g ++ [v]) = shiftOpt L g ++
      [if L ≤ g.length then g[g.length - L]? else none] := by
  unfold shiftOpt
  have hlen : (g ++ [v]).length = g.length + 1 := by simp
  rw [hlen, List.range_succ, List.map_append]
  congr 1
  · apply List.map_congr_left
    intro m hm
    have hm' : m < g.length := List.mem_range.mp hm
    by_cases hLm : L ≤ m
    · have : m - L < g.length := by omega
      rw [if_pos hLm, if_pos hLm, List.getElem?_append_left this]
    · rw [if_neg hLm, if_neg hLm]
  · simp only [List.map_cons, List.map_nil]
    by_cases hLg : L ≤ g.length
    · have : g.length - L < g.length := by omega
      rw [if_pos hLg, if_pos hLg, List.getElem?_append_left this]
    · rw [if_neg hLg, if_neg hLg]

/-- Restricted to the rows of one key, the grouped shift of the frame is
exactly the shift of that key's own value sequence. -/
theorem groupCol_groupShift {K V : Type} [DecidableEq K] (L : Nat)
    (hL : 1 ≤ L) (k : K) (xs : List (K × V)) :
    groupCol k xs (groupShift L xs) =
      shiftOpt L ((xs.filter (fun p => decide (p.1 = k))).map (fun p => p.2)) := by
  induction xs using List.reverseRecOn with
  | nil => rfl
  | append_singleton xs kv ih =>
    rw [groupShift_append_single]
    unfold groupCol
    rw [List.zip_append (by rw [groupShift_length]), List.filter_append, List.map_append]
    unfold groupCol at ih
    rw [ih, List.filter_append]
    simp only [List.zip_cons_cons, List.zip_nil_right]
    by_cases hk : kv.1 = k
    · have hfil1 : ([(kv, if L ≤ ((xs.filter (fun p => decide (p.1 = kv.1))).map
          (fun p => p.2)).length
          then ((xs.filter (fun p => decide (p.1 = kv.1))).map (fun p => p.2))[((xs.filter
            (fun p => decide (p.1 = kv.1))).map (fun p => p.2)).length - L]?
          else none)].filter (fun p => decide (p.1.1 = k))) =
          [(kv, if L ≤ ((xs.filter (fun p => decide (p.1 = kv.1))).map
            (fun p => p.2)).length
          then ((xs.filter (fun p => decide (p.1 = kv.1))).map (fun p => p.2))[((xs.filter
            (fun p => decide (p.1 = kv.1))).map (fun p => p.2)).length - L]?
          else none)] := by
        simp [List.filter_cons, hk]
      have hfil2 : ([kv].filter (fun p => decide (p.1 = k))) = [kv] := by
        simp [List.filter_cons, hk]
      rw [hfil1, hfil2]
      simp only [List.map_append, List.map_cons, List.map_nil]
      rw [shiftOpt_append_single L hL, hk]
    · have hfil1 : ([(kv, if L ≤ ((xs.filter (fun p => decide (p.1 = kv.1))).map
          (fun p => p.2)).length
          then ((xs.filter (fun p => decide (p.1 = kv.1))).map (fun p => p.2))[((xs.filter
            (fun p => decide (p.1 = kv.1))).map (fun p => p.2)).length - L]?
          else none)].filter (fun p => decide (p.1.1 = k))) = [] := by
        simp [List.filter_cons, hk]
      have hfil2 : ([kv].filter (fun p => decide (p.1 = k))) = [] := by
        simp [List.filter_cons, hk]
      rw [hfil1, hfil2, List.map_nil, List.append_nil, List.append_nil]

/-- With duplicate-free keys, filtering a list by a member's key returns
exactly that member. -/
theorem filter_key_nodup_mem {α K : Type} [DecidableEq K] (key : α → K)
    (l : List α) (hn : (l.map key).Nodup) (a : α) (ha : a ∈ l) :
    l.filter (fun x => decide (key x = key a)) = [a] := by
  induction l with
  | nil => cases ha
  | cons b rest ih =>
    rw [List.map_cons, List.nodup_cons] at hn
    obtain ⟨hb, hrest⟩ := hn
    rcases List.mem_cons.mp ha with rfl | hmem
    · have hz : rest.filter (fun x => decide (key x = key a)) = [] := by
        rw [List.filter_eq_nil_iff]
        intro x hx
        simp only [decide_eq_true_eq]
        intro hkey
        exact hb (hkey ▸ List.mem_map_of_mem key hx)
      rw [List.filter_cons, hz]
      simp
    · have hne : key b ≠ key a := by
        intro he
        exact hb (he ▸ List.mem_map_of_mem key hmem)
      rw [List.filter_cons, ih hrest hmem]
      simp [hne]

/-- A concatenation of singleton blocks is a map. -/
theorem flatMap_one {α β : Type} (l : List α) (f : α → β) :
    l.flatMap (fun x => [f x]) = l.map f := by
  induction l with
  | nil => rfl
  | cons a l ih => simp [List.flatMap_cons, ih]

/-- The melted frame restricted to one entity lists that entity's day
cells, one row per day, in day order. -/
theorem melt_filter_entity (sales : List SalesRow) (D : Nat) (row : SalesRow)
    (hn : (sales.map (fun r => r.sid)).Nodup) (hmem : row ∈ sales) :
    (meltM5 sales D).filter (fun r => decide (r.sid = row.sid)) =
      (List.range D).map (fun d =>
        ⟨row.sid, row.item, row.store, d, row.vals.getD d 0⟩) := by
  unfold meltM5
  rw [List.filter_flatMap]
  have hblock : ∀ d : Nat, ((sales.map (fun r : SalesRow =>
      (⟨r.sid, r.item, r.store, d, r.vals.getD d 0⟩ : LongRow))).filter
        (fun r => decide (r.sid = row.sid))) =
      [⟨row.sid, row.item, row.store, d, row.vals.getD d 0⟩] := by
    intro d
    rw [List.filter_map]
    have hpred : ((fun r : LongRow => decide (r.sid = row.sid)) ∘
        (fun r : SalesRow => (⟨r.sid, r.item, r.store, d, r.vals.getD d 0⟩ : LongRow))) =
        (fun r : SalesRow => decide (r.sid = row.sid)) := rfl
    rw [hpred, filter_key_nodup_mem (fun r => r.sid) sales hn row hmem]
    rfl
  simp only [hblock]
  exact flatMap_one (List.range D) _

/-- The `some`-tagged price keys stay duplicate-free. -/
theorem priceKeys_some_nodup (prices : List PriceRow)
    (h : (prices.map (fun p => (p.store_id, p.item_id, p.wm_yr_wk))).Nodup) :
    (prices.map (fun pr => ((pr.store_id, pr.item_id, some pr.wm_yr_wk) :
      Nat × Nat × Option Nat))).Nodup := by
  have heq : (prices.map fun pr => ((pr.store_id, pr.item_id, some pr.wm_yr_wk) :
      Nat × Nat × Option Nat)) =
      (prices.map (fun p => (p.store_id, p.item_id, p.wm_yr_wk))).map
        (fun t => (t.1, t.2.1, some t.2.2)) := by
    simp [List.map_map, Function.comp]
  rw [heq]
  refine h.map ?_
  intro x y hxy
  obtain ⟨x1, x2, x3⟩ := x
  obtain ⟨y1, y2, y3⟩ := y
  simp only [Prod.mk.injEq, Option.some.injEq] at hxy
  obtain ⟨h1, h2, h3⟩ := hxy
  simp [h1, h2, h3]

/-- When the calendar and price tables are uniquely keyed, the two merges
keep the melted frame's rows one-for-one, so the `(id, sales)` series the
lags are computed over is the melted series itself. -/
theorem m5KV_eq_melt (nrows : Option Nat) (sales : List SalesRow) (D : Nat)
    (cal : List CalRow) (prices : List PriceRow)
    (hcal : (cal.map CalRow.d).Nodup)
    (hpr : (prices.map (fun p => (p.store_id, p.item_id, p.wm_yr_wk))).Nodup) :
    m5KV nrows sales D cal prices =
      (meltM5 (takeRows nrows sales) D).map (fun r => (r.sid, r.sales)) := by
  unfold m5KV m5Df m5WithPrices m5WithCalendar
  rw [leftJoin_eq_map _ _ _ _ hcal,
    leftJoin_eq_map _ _ _ _ (priceKeys_some_nodup prices hpr)]
  simp only [List.map_map]
  rfl

/-- `demand_df` comes out of the sort ordered by `(product_id, order_date)`. -/
theorem olistDemand_sorted (od : List OrderDataRow) :
    List.Pairwise demandLe (olistDemand od) :=
  List.sorted_insertionSort demandLe _

/-- `demand_df` has one row per `(product_id, order_date)` key. -/
theorem olistDemand_keys_nodup (od : List OrderDataRow) :
    ((olistDemand od).map (fun r => r.1)).Nodup := by
  have hperm : List.Perm ((olistDemand od).map (fun a => a.1))
      ((groupSize (od.map (fun x => (x.product_id, x.order_date)))).map (fun a => a.1)) :=
    (List.perm_insertionSort demandLe _).map _
  rw [hperm.nodup_iff, groupSize_keys]
  exact ((List.perm_insertionSort pairLe _).nodup_iff).mpr (List.nodup_dedup _)

/-- C2: each `lag_L` column is the within-entity shift of the entity's own
value sequence.  Conjuncts: (1) reading `shiftOpt`: position `t` holds the
group's value at position `t - L` and is missing for `t < L`; (2) M5: for
uniquely-keyed calendar and price tables, the `lag_L` entries at entity
`row`'s rows are exactly the shift of that entity's day-ordered sales
`[vals 0, …, vals (D-1)]` — under the row cap, position `t` is still the
`t`-th day of the entity; (3) Olist: the `lag_L` entries at product `p`'s
rows of `demand_df` are the shift of `p`'s own units sequence; (4) the rows
of `demand_df` belonging to `p` stand in strictly increasing date order, so
positions in (3) are positions in `p`'s date-ascending sequence. -/
theorem c2_lag_columns_are_entity_shifts :
    (∀ {V : Type} (L : Nat) (g : List V) (t : Nat), t < g.length →
        (shiftOpt L g)[t]? = some (if L ≤ t then g[t - L]? else none)) ∧
    (∀ (L : Nat) (nrows : Option Nat) (sales : List SalesRow) (D : Nat)
        (cal : List CalRow) (prices : List PriceRow) (row : SalesRow),
        1 ≤ L →
        ((takeRows nrows sales).map (fun r => r.sid)).Nodup →
        row ∈ takeRows nrows sales →
        (cal.map CalRow.d).Nodup →
        (prices.map (fun p => (p.store_id, p.item_id, p.wm_yr_wk))).Nodup →
        groupCol row.sid (m5KV nrows sales D cal prices)
            (m5Lag L nrows sales D cal prices) =
          shiftOpt L ((List.range D).map (fun d => row.vals.getD d 0))) ∧
    (∀ (L : Nat) (od : List OrderDataRow) (p : Nat), 1 ≤ L →
        groupCol p ((olistDemand od).map (fun r => (r.1.1, r.2))) (olistLag L od) =
          shiftOpt L (((olistDemand od).filter
            (fun r => decide (r.1.1 = p))).map (fun r => r.2))) ∧
    (∀ (od : List OrderDataRow) (p : Nat),
        List.Pairwise (fun a b => a < b) (((olistDemand od).filter
          (fun r => decide (r.1.1 = p))).map (fun r => r.1.2))) := by
  refine ⟨?_, ?_, ?_, ?_⟩
  · intro V L g t ht
    simp [shiftOpt, List.getElem?_map, List.getElem?_range, ht]
  · intro L nrows sales D cal prices row hL hnodup hmem hcal hpr
    unfold m5Lag
    rw [m5KV_eq_melt nrows sales D cal prices hcal hpr, groupCol_groupShift L hL]
    rw [List.filter_map]
    have hpred : ((fun p : Nat × ℚ => decide (p.1 = row.sid)) ∘
        (fun r : LongRow => (r.sid, r.sales))) =
        (fun r : LongRow => decide (r.sid = row.sid)) := rfl
    rw [hpred, melt_filter_entity (takeRows nrows sales) D row hnodup hmem,
      List.map_map, List.map_map]
    rfl
  · intro L od p hL
    unfold olistLag
    rw [groupCol_groupShift L hL, List.filter_map]
    have hpred : ((fun q : Nat × Nat => decide (q.1 = p)) ∘
        (fun r : ((Nat × Nat) × Nat) => (r.1.1, r.2))) =
        (fun r : ((Nat × Nat) × Nat) => decide (r.1.1 = p)) := rfl
    rw [hpred, List.map_map]
    rfl
  · intro od p
    rw [List.pairwise_map]
    have h1 : List.Pairwise demandLe (olistDemand od) := olistDemand_sorted od
    have h2 : List.Pairwise (fun a b : ((Nat × Nat) × Nat) => a.1 ≠ b.1)
        (olistDemand od) :=
      List.pairwise_map.mp (olistDemand_keys_nodup od)
    have h12 := h1.and h2
    have hsub : List.Pairwise (fun a b : ((Nat × Nat) × Nat) =>
        demandLe a b ∧ a.1 ≠ b.1)
        ((olistDemand od).filter (fun r => decide (r.1.1 = p))) :=
      List.Pairwise.sublist (List.filter_sublist _) h12
    refine hsub.imp_of_mem ?_
    intro a b ha hb hab
    obtain ⟨hle, hne⟩ := hab
    have hpa : a.1.1 = p := by
      have := (List.mem_filter.mp ha).2
      simpa using this
    have hpb : b.1.1 = p := by
      have := (List.mem_filter.mp hb).2
      simpa using this
    unfold demandLe pairLe at hle
    rcases hle with h | ⟨heq, hdle⟩
    · rw [hpa, hpb] at h
      exact absurd h (lt_irrefl p)
    · have hdne : a.1.2 ≠ b.1.2 := fun hd => hne (Prod.ext heq hd)
      exact lt_of_le_of_ne hdle hdne

/-- A closed witness applying `c2_lag_columns_are_entity_shifts` at
concrete inputs. -/
theorem c2_witness :
    ((shiftOpt 2 [(10 : ℚ), 20, 30])[2]? =
      some (if 2 ≤ 2 then [(10 : ℚ), 20, 30][2 - 2]? else none)) ∧
    (groupCol (⟨1, 1, 1, [1, 2, 3, 4, 5, 6, 7, 8, 9, 10]⟩ : SalesRow).sid
        (m5KV none toyA 10 [] []) (m5Lag 7 none toyA 10 [] []) =
      shiftOpt 7 ((List.range 10).map (fun d =>
        (⟨1, 1, 1, [1, 2, 3, 4, 5, 6, 7, 8, 9, 10]⟩ : SalesRow).vals.getD d 0))) ∧
    (groupCol 5 ((olistDemand [⟨1, 5, 100, none, none, none, none, none, none⟩]).map
        (fun r => (r.1.1, r.2)))
        (olistLag 7 [⟨1, 5, 100, none, none, none, none, none, none⟩]) =
      shiftOpt 7 (((olistDemand [⟨1, 5, 100, none, none, none, none, none, none⟩]).filter
        (fun r => decide (r.1.1 = 5))).map (fun r => r.2))) :=
  ⟨c2_lag_columns_are_entity_shifts.1 2 [(10 : ℚ), 20, 30] 2 (by decide),
   c2_lag_columns_are_entity_shifts.2.1 7 none toyA 10 [] []
     ⟨1, 1, 1, [1, 2, 3, 4, 5, 6, 7, 8, 9, 10]⟩
     (by decide) (by decide) (by decide) (by decide) (by decide),
   c2_lag_columns_are_entity_shifts.2.2.1 7
     [⟨1, 5, 100, none, none, none, none, none, none⟩] 5 (by decide)⟩
